import Mathlib

/-!
Verification development for the crop-yield recommendation repository.

The Python sources are shallowly embedded in Lean:
per-row model predictions (floats produced by the opaque fitted pipeline)
are modelled as exact rationals, since every operation the code performs
on them (comparison, `max`, stable sorting) is order-theoretic and exact;
pandas data frames are modelled as association-list tables; Python's
`list.sort(key=..., reverse=True)` (a stable descending sort by key) is
modelled as an insertion sort over index-tagged elements ordered by
(key descending, original position ascending), which is the unique
permutation CPython's documented stable sort produces.
-/

namespace CropRec

/-! ### Python `str.strip` on character lists (used by the cleaners) -/

/-- Characters removed by Python's `str.strip()` with no argument. -/
def isPySpace (c : Char) : Bool := c.isWhitespace

/-- Strip whitespace from both ends of a character list, as `str.strip()`. -/
def stripChars (l : List Char) : List Char :=
  (l.dropWhile isPySpace).rdropWhile isPySpace

/-- Embedding of Python's `str.strip()`. -/
def pyStrip (s : String) : String := ⟨stripChars s.data⟩

theorem stripChars_idem (l : List Char) : stripChars (stripChars l) = stripChars l := by
  unfold stripChars
  set m := l.dropWhile isPySpace with hm
  have hmfix : m.dropWhile isPySpace = m := by
    rw [hm]; exact List.dropWhile_idempotent _ _
  set s := m.rdropWhile isPySpace with hs
  have hpre : s <+: m := by rw [hs]; exact List.rdropWhile_prefix _ _
  have hsfix : s.dropWhile isPySpace = s := by
    rcases hpre with ⟨t, ht⟩
    cases hcs : s with
    | nil => simp
    | cons a s' =>
        have hma : m = a :: (s' ++ t) := by rw [← ht, hcs]; simp
        have hpa : isPySpace a = false := by
          by_contra hcon
          have hpa' : isPySpace a = true := by
            cases h : isPySpace a with
            | false => exact absurd h hcon
            | true => rfl
          have := hmfix
          rw [hma] at this
          simp [List.dropWhile_cons, hpa'] at this
          have hlen : (List.dropWhile isPySpace (s' ++ t)).length ≤ (s' ++ t).length :=
            (List.dropWhile_sublist _).length_le
          rw [this] at hlen
          simp at hlen
        simp [List.dropWhile_cons, hpa]
  rw [hsfix, hs]
  exact List.rdropWhile_idempotent _ _

theorem pyStrip_idem (s : String) : pyStrip (pyStrip s) = pyStrip s := by
  unfold pyStrip
  simp [stripChars_idem]

/-- Embedding of Python's `str.lower()` (all crop names in scope are ASCII). -/
def pyLower (s : String) : String := ⟨s.data.map Char.toLower⟩

/-! ### Inference data model (`src/src/models/inference.py`, `src/api/model_loader.py`) -/

/-- One input row of the prediction `DataFrame`:
`{"crop", "country", "rainfall_mm", "pesticides_tonnes", "avg_temp"}`. -/
structure InRow where
  crop : String
  country : String
  rainfall_mm : ℚ
  pesticides_tonnes : ℚ
  avg_temp : ℚ
deriving DecidableEq

/-- One recommendation entry, the dict
`{"rank", "crop", "predicted_yield", "yield_unit"}`. -/
structure CropRecEntry where
  rank : ℕ
  crop : String
  predicted_yield : ℚ
  yield_unit : String
deriving DecidableEq

/-- `SUPPORTED_CROPS` from `src/src/config/constants.py`. -/
def SUPPORTED_CROPS : List String :=
  ["Maize", "Potatoes", "Rice, paddy", "Sorghum", "Soybeans",
   "Wheat", "Cassava", "Sweet potatoes", "Plantains and others", "Yams"]

/-- Python truthiness-based defaulting `xs or default`: `None` and the empty
list are falsy and are replaced by the default. -/
def pyOrDefault (xs : Option (List α)) (default : List α) : List α :=
  match xs with
  | none => default
  | some [] => default
  | some l => l

/-- The order realised by CPython's `list.sort(key=yield, reverse=True)`:
strictly larger key first; on key ties the element with the smaller original
position first (stability). -/
def rLex (a b : ℕ × CropRecEntry) : Prop :=
  b.2.predicted_yield < a.2.predicted_yield ∨
    (a.2.predicted_yield = b.2.predicted_yield ∧ a.1 ≤ b.1)

instance : DecidableRel rLex := fun a b => by
  unfold rLex; infer_instance

instance : IsTotal (ℕ × CropRecEntry) rLex := by
  constructor
  intro a b
  rcases lt_trichotomy a.2.predicted_yield b.2.predicted_yield with h | h | h
  · exact Or.inr (Or.inl h)
  · rcases Nat.le_total a.1 b.1 with h2 | h2
    · exact Or.inl (Or.inr ⟨h, h2⟩)
    · exact Or.inr (Or.inr ⟨h.symm, h2⟩)
  · exact Or.inl (Or.inl h)

instance : IsTrans (ℕ × CropRecEntry) rLex := by
  constructor
  intro a b c hab hbc
  rcases hab with h1 | ⟨he1, hi1⟩
  · rcases hbc with h2 | ⟨he2, _⟩
    · exact Or.inl (h2.trans h1)
    · exact Or.inl (he2 ▸ h1)
  · rcases hbc with h2 | ⟨he2, hi2⟩
    · exact Or.inl (he1.symm ▸ h2)
    · exact Or.inr ⟨he1.trans he2, hi1.trans hi2⟩

/-- Embedding of `results.sort(key=lambda x: x["predicted_yield"], reverse=True)`:
the stable descending sort by predicted yield. -/
def stableSortDesc (l : List CropRecEntry) : List CropRecEntry :=
  (l.enum.insertionSort rLex).map Prod.snd

/-- Embedding of the rank-assignment loop
`for i, result in enumerate(results): result["rank"] = i + 1`. -/
def assignRanks (l : List CropRecEntry) : List CropRecEntry :=
  l.enum.map (fun p => { p.2 with rank := p.1 + 1 })

/-- Python list slicing `l[:n]` for an `int` bound `n` (a negative bound
counts from the end, clamping at zero). -/
def pySliceTo (n : ℤ) (l : List α) : List α :=
  if 0 ≤ n then l.take n.toNat else l.take (l.length - (-n).toNat)

/-- The per-crop result construction in `recommend_crops`: one entry per
candidate crop, rank initialised to 0 and the raw (unclamped) batched
prediction as `predicted_yield`. -/
def buildResults (model : InRow → ℚ) (country : String) (rainfall_mm : ℚ)
    (pesticides_tonnes : ℚ) (avg_temp : ℚ) (crops : List String) : List CropRecEntry :=
  crops.map (fun crop =>
    { rank := 0, crop := crop,
      predicted_yield := model ⟨crop, country, rainfall_mm, pesticides_tonnes, avg_temp⟩,
      yield_unit := "hg/ha" })

/-- Embedding of `predict_yield` (`src/src/models/inference.py`): build one
input row, invoke the model, return the raw prediction. No clamping occurs
on this path. -/
def predict_yield (model : InRow → ℚ) (crop country : String)
    (rainfall_mm pesticides_tonnes avg_temp : ℚ) : ℚ :=
  model ⟨crop, country, rainfall_mm, pesticides_tonnes, avg_temp⟩

/-- Embedding of `recommend_crops` (`src/src/models/inference.py`):
`crops or SUPPORTED_CROPS`, batched prediction, stable descending sort,
rank assignment, optional truncation `results[:top_n]`. No clamping and no
`top_n` validation occur in the source. -/
def recommend_crops (model : InRow → ℚ) (country : String)
    (rainfall_mm pesticides_tonnes avg_temp : ℚ)
    (crops : Option (List String)) (top_n : Option ℤ) : List CropRecEntry :=
  let cropList := pyOrDefault crops SUPPORTED_CROPS
  let results := buildResults model country rainfall_mm pesticides_tonnes avg_temp cropList
  let ranked := assignRanks (stableSortDesc results)
  match top_n with
  | none => ranked
  | some n => pySliceTo n ranked

/-- Embedding of `validate_crop` (`src/src/models/inference.py`): exact
membership first; otherwise the first case-insensitive match yields
`(True, "Did you mean ...?")` in the source; otherwise
`(False, "... is not supported ...")`. -/
def validate_crop (crop : String) (supported_crops : Option (List String)) : Bool × String :=
  let supported := pyOrDefault supported_crops SUPPORTED_CROPS
  if crop ∈ supported then (true, "")
  else
    match supported.find? (fun s => pyLower s = pyLower crop) with
    | some s => (true, "Did you mean \x27" ++ s ++ "\x27?")
    | none =>
        (false, "Crop \x27" ++ crop ++ "\x27 is not supported. Supported crops: " ++
          "[" ++ String.intercalate ", " (supported.map (fun s => "\x27" ++ s ++ "\x27")) ++ "]")

/-- State of `ModelLoader` (`src/api/model_loader.py`) after `load_model`
succeeded; the opaque fitted pipeline is the `model` field and
`supported_crops` is the metadata crop list (or the default ten). The
Unloaded-state guard is a separate runtime check not involved in any claim. -/
structure ModelLoader where
  model : InRow → ℚ
  supported_crops : List String

/-- Embedding of `ModelLoader.predict`: single-row prediction clamped with
`max(0, float(prediction))`. -/
def ModelLoader.predict (L : ModelLoader) (crop country : String)
    (rainfall_mm pesticides_tonnes avg_temp : ℚ) : ℚ :=
  max 0 (L.model ⟨crop, country, rainfall_mm, pesticides_tonnes, avg_temp⟩)

/-- Embedding of `ModelLoader.recommend`: one row per supported crop, each
prediction clamped with `max(0, ...)`, stable descending sort, rank
assignment, optional truncation `results[:top_n]`. -/
def ModelLoader.recommend (L : ModelLoader) (country : String)
    (rainfall_mm pesticides_tonnes avg_temp : ℚ) (top_n : Option ℤ) : List CropRecEntry :=
  let results := L.supported_crops.map (fun crop =>
    { rank := 0, crop := crop,
      predicted_yield := max 0 (L.model ⟨crop, country, rainfall_mm, pesticides_tonnes, avg_temp⟩),
      yield_unit := "hg/ha" })
  let ranked := assignRanks (stableSortDesc results)
  match top_n with
  | none => ranked
  | some n => pySliceTo n ranked

/-! ### Association-list model of pandas data frames

A cell is either a (string) value, an exact numeric value, or missing (NaN).
Numeric cells carry exact rationals; text cells are modelled as
non-numeric data, so `pd.to_numeric(..., errors="coerce")` sends them to
missing (numeric-looking strings are represented as `num` cells directly).
A table is a column-name list plus rows of `(column, cell)` pairs. -/

inductive Cell where
  | text (s : String)
  | num (q : ℚ)
  | na
deriving DecidableEq

/-- A data-frame row: association list from column name to cell. -/
abbrev Row := List (String × Cell)

structure Table where
  cols : List String
  rows : List Row
deriving DecidableEq

/-- First cell stored under a column name in a row. -/
def lookupCell (c : String) (r : Row) : Option Cell :=
  (r.find? (fun kv => kv.1 = c)).map Prod.snd

/-- Errors the pandas calls in the cleaners can raise. There is no
`ConfigurationError` (or any custom error class) anywhere in the repository;
only pandas' own key/value errors can occur. -/
inductive PdErr where
  | keyError (msg : String)
  | valueError (msg : String)
deriving DecidableEq

instance {ε α : Type} [DecidableEq ε] [DecidableEq α] : DecidableEq (Except ε α) := fun a b =>
  match a, b with
  | .ok x, .ok y =>
      if h : x = y then isTrue (by rw [h]) else isFalse (by intro hc; cases hc; exact h rfl)
  | .error x, .error y =>
      if h : x = y then isTrue (by rw [h]) else isFalse (by intro hc; cases hc; exact h rfl)
  | .ok _, .error _ => isFalse (by intro hc; cases hc)
  | .error _, .ok _ => isFalse (by intro hc; cases hc)

/-- `df.rename(columns=mapping)` applied to one name: exact-match renaming. -/
def renameKey (mapping : List (String × String)) (c : String) : String :=
  (mapping.lookup c).getD c

/-- Rename columns of a table (header names and row keys move together,
mirroring pandas' positional column identity). -/
def renameCols (mapping : List (String × String)) (df : Table) : Table :=
  { cols := df.cols.map (renameKey mapping),
    rows := df.rows.map (fun r => r.map (fun kv => (renameKey mapping kv.1, kv.2))) }

/-- `df.columns = df.columns.str.strip()`. -/
def stripColNames (df : Table) : Table :=
  { cols := df.cols.map pyStrip,
    rows := df.rows.map (fun r => r.map (fun kv => (pyStrip kv.1, kv.2))) }

/-- `df[[c1, ..., cn]]`: column selection; raises `KeyError` when a requested
column is absent. -/
def selectCols (cs : List String) (df : Table) : Except PdErr Table :=
  if cs.all (fun c => c ∈ df.cols) then
    .ok { cols := cs,
          rows := df.rows.map (fun r => cs.map (fun c => (c, (lookupCell c r).getD Cell.na))) }
  else .error (.keyError "columns not found")

/-- Apply a cell transform to one column of a row. -/
def updateCell (c : String) (f : Cell → Cell) (r : Row) : Row :=
  r.map (fun kv => if kv.1 = c then (kv.1, f kv.2) else kv)

/-- Apply a cell transform to one column of a table. -/
def mapCol (c : String) (f : Cell → Cell) (df : Table) : Table :=
  { df with rows := df.rows.map (updateCell c f) }

/-- `pd.to_numeric(x, errors="coerce")` on one cell: numbers pass through,
anything non-numeric becomes missing, never raising. -/
def toNumericCell : Cell → Cell
  | .num q => .num q
  | _ => .na

/-- `df[c] = pd.to_numeric(df[c], errors="coerce")`. -/
def toNumericCol (c : String) (df : Table) : Table := mapCol c toNumericCell df

/-- Python `int(x)` truncation toward zero on a rational. -/
def pyTrunc (q : ℚ) : ℤ := if 0 ≤ q then ⌊q⌋ else ⌈q⌉

/-- `astype(int)` on one cell: defined on numeric cells only. -/
def cellAsInt : Cell → Except PdErr Cell
  | .num q => .ok (.num ((pyTrunc q : ℤ) : ℚ))
  | _ => .error (.valueError "cannot convert non-numeric to int")

/-- `df["year"] = df["year"].astype(int)`: raises `KeyError` when the column
is absent and `ValueError` on a non-numeric (e.g. missing) entry. -/
def yearAsInt (df : Table) : Except PdErr Table :=
  if "year" ∈ df.cols then do
    let rows ← df.rows.mapM (fun r =>
      match lookupCell "year" r with
      | some c => do
          let c' ← cellAsInt c
          pure (updateCell "year" (fun _ => c') r)
      | none => .error (.valueError "missing year cell"))
    pure { df with rows := rows }
  else .error (.keyError "year")

/-- `COUNTRY_MAPPING` from `src/src/config/constants.py`. -/
def COUNTRY_MAPPING : List (String × String) :=
  [("United States of America", "United States"),
   ("USA", "United States"),
   ("UK", "United Kingdom"),
   ("United Kingdom of Great Britain and Northern Ireland", "United Kingdom"),
   ("Russian Federation", "Russia"),
   ("Republic of Korea", "South Korea"),
   ("Korea, Republic of", "South Korea"),
   ("Viet Nam", "Vietnam"),
   ("Iran (Islamic Republic of)", "Iran"),
   ("Syrian Arab Republic", "Syria"),
   ("Venezuela (Bolivarian Republic of)", "Venezuela"),
   ("Bolivia (Plurinational State of)", "Bolivia"),
   ("United Republic of Tanzania", "Tanzania"),
   ("C\xC3\xB4te d\x27Ivoire", "Ivory Coast"),
   ("Czechia", "Czech Republic")]

/-- `Series.str.strip()` on one cell: strings are stripped, non-strings
become missing (pandas yields NaN for non-string data under `.str`). -/
def stripCell : Cell → Cell
  | .text s => .text (pyStrip s)
  | _ => .na

/-- `Series.replace(COUNTRY_MAPPING)` on one cell: exact string matches are
substituted, everything else passes through. -/
def replaceCountryCell : Cell → Cell
  | .text s => .text ((COUNTRY_MAPPING.lookup s).getD s)
  | c => c

/-- The per-cell effect of `standardize_country_names`: strip, then replace. -/
def stdCountryCell (c : Cell) : Cell := replaceCountryCell (stripCell c)

/-- Embedding of `standardize_country_names` (`src/src/data/cleaner.py`):
when the country column exists, strip each value and substitute the fixed
alias mapping; otherwise the table is returned unchanged. -/
def standardize_country_names (country_col : String) (df : Table) : Table :=
  if country_col ∈ df.cols then mapCol country_col stdCountryCell df else df

/-- `COLUMN_MAPPING` from `src/src/config/constants.py`. -/
def COLUMN_MAPPING : List (String × String) :=
  [("Area", "country"),
   ("Item", "crop"),
   ("Year", "year"),
   ("hg/ha_yield", "yield"),
   ("average_rain_fall_mm_per_year", "rainfall_mm"),
   ("pesticides_tonnes", "pesticides_tonnes"),
   ("avg_temp", "avg_temp")]

/-- Embedding of `standardize_column_names` (`src/src/data/cleaner.py`):
strip whitespace from every column name, then rename by the mapping. -/
def standardize_column_names (mapping : List (String × String)) (df : Table) : Table :=
  renameCols mapping (stripColNames df)

/-- Embedding of `clean_text_column`: `series.str.strip()`. -/
def clean_text_column (df : Table) (c : String) : Table := mapCol c stripCell df

/-- `df.dropna(subset=[c])`: keep rows whose cell under `c` is present and
not missing. -/
def dropnaSubset (c : String) (df : Table) : Table :=
  { df with rows := df.rows.filter (fun r =>
      match lookupCell c r with
      | some Cell.na => false
      | none => false
      | _ => true) }

/-- First-occurrence deduplication by key, with an accumulator of keys
already seen (`df.drop_duplicates(subset=..., keep="first")`). -/
def dedupFirstAux (key : α → κ) [DecidableEq κ] (seen : List κ) : List α → List α
  | [] => []
  | x :: xs =>
      if key x ∈ seen then dedupFirstAux key seen xs
      else x :: dedupFirstAux key (key x :: seen) xs

/-- Key of a row under a subset of columns. -/
def rowKey (cs : List String) (r : Row) : List (Option Cell) :=
  cs.map (fun c => lookupCell c r)

/-- `df.drop_duplicates(subset=cs, keep="first")`; raises `KeyError` when a
subset column is absent. -/
def dropDupSubset (cs : List String) (df : Table) : Except PdErr Table :=
  if cs.all (fun c => c ∈ df.cols) then
    .ok { df with rows := dedupFirstAux (rowKey cs) [] df.rows }
  else .error (.keyError "subset columns not found")

/-! ### Yield cleaner (`clean_yield_data`, `src/src/data/cleaner.py`) -/

/-- Steps (1)-(3) of `clean_yield_data`: standardize column names,
standardize country names, strip crop names (guarded on column presence). -/
def yieldStage1 (df : Table) : Table :=
  let df := standardize_column_names COLUMN_MAPPING df
  let df := standardize_country_names "country" df
  if "crop" ∈ df.cols then clean_text_column df "crop" else df

/-- Step (4) of `clean_yield_data`: coerce year to integer, guarded on
column presence (`astype(int)` can still raise on non-numeric data). -/
def yieldStage2 (df : Table) : Except PdErr Table :=
  if "year" ∈ df.cols then yearAsInt df else pure df

/-- Steps (5)-(6) of `clean_yield_data`: coerce the four numeric columns
(`errors="coerce"`, never raising), then drop rows with a missing yield
(guarded on column presence). -/
def yieldStage3 (df : Table) : Table :=
  let df := ["yield", "rainfall_mm", "pesticides_tonnes", "avg_temp"].foldl
    (fun d c => if c ∈ d.cols then toNumericCol c d else d) df
  if "yield" ∈ df.cols then dropnaSubset "yield" df else df

/-- All steps of `clean_yield_data` before the final `drop_duplicates`. -/
def cleanYieldPreDedup (df : Table) : Except PdErr Table := do
  let df ← yieldStage2 (yieldStage1 df)
  pure (yieldStage3 df)

/-- Embedding of `clean_yield_data`: the pre-deduplication pipeline followed
by `drop_duplicates(subset=key_cols, keep="first")`, where `key_cols` is the
present subset of `["country", "crop", "year"]` (skipped when empty). -/
def clean_yield_data (df : Table) : Except PdErr Table := do
  let df ← cleanYieldPreDedup df
  let key_cols := ["country", "crop", "year"].filter (fun c => c ∈ df.cols)
  if key_cols.isEmpty then pure df else dropDupSubset key_cols df

/-! ### Context cleaner (`clean_context_data`, `src/src/data/cleaner.py`) -/

/-- The unconditional tail of `clean_context_data`: standardize country
names, coerce year to integer, drop duplicate `(country, year)` keys. These
steps run for every type tag, including unknown ones. -/
def ctxCommonTail (df : Table) : Except PdErr Table := do
  let df := standardize_country_names "country" df
  let df ← yearAsInt df
  dropDupSubset ["country", "year"] df

/-- Embedding of `clean_context_data`: per-type column renaming/selection
and numeric coercion for the three known type tags, then the common tail.
An unknown type tag matches no branch and is NOT rejected — the source has
no `else: raise` and no `ConfigurationError` exists in the repository. -/
def clean_context_data (df : Table) (context_type : String) : Except PdErr Table := do
  let df ←
    if context_type = "pesticides" then do
      let df := renameCols [("Area", "country"), ("Year", "year"), ("Value", "pesticides_tonnes")] df
      let df ← selectCols ["country", "year", "pesticides_tonnes"] df
      pure (toNumericCol "pesticides_tonnes" df)
    else if context_type = "rainfall" then do
      let df := stripColNames df
      let df := renameCols
        [("Area", "country"), ("Year", "year"), ("average_rain_fall_mm_per_year", "rainfall_mm")] df
      let df ← selectCols ["country", "year", "rainfall_mm"] df
      pure (toNumericCol "rainfall_mm" df)
    else if context_type = "temperature" then do
      let df := renameCols [("country", "country"), ("year", "year"), ("avg_temp", "avg_temp")] df
      let df ← selectCols ["country", "year", "avg_temp"] df
      pure (toNumericCol "avg_temp" df)
    else pure df
  ctxCommonTail df

/-! ### Fusion engine (`merge_datasets`, `src/src/data/fusion.py`) -/

/-- The `has_context` check: all three context columns already present. -/
def hasAllContext (df : Table) : Prop :=
  "rainfall_mm" ∈ df.cols ∧ "pesticides_tonnes" ∈ df.cols ∧ "avg_temp" ∈ df.cols

instance (df : Table) : Decidable (hasAllContext df) := by
  unfold hasAllContext; infer_instance

/-- `left.merge(right, on=on, how="left")`: every left row is kept; rows of
the right table whose join-key cells all agree are matched (several matches
fan the left row out, pandas' documented behaviour); a left row with no
match receives missing values for the right table's non-key columns. -/
def leftMerge (left right : Table) (onCols : List String) : Table :=
  let newCols := right.cols.filter (fun c => c ∉ onCols)
  { cols := left.cols ++ newCols,
    rows := left.rows.flatMap (fun lr =>
      let ms := right.rows.filter
        (fun rr => onCols.all (fun c => lookupCell c rr = lookupCell c lr))
      if ms.isEmpty then [lr ++ newCols.map (fun c => (c, Cell.na))]
      else ms.map (fun rr => lr ++ newCols.map (fun c => (c, (lookupCell c rr).getD Cell.na)))) }

/-- One optional context merge inside `merge_datasets`: select the three
relevant columns of the supplied context table and left-join on
`(country, year)`; absent tables are skipped. -/
def mergeStep (res : Table) (ctx : Option Table) (valueCol : String) : Except PdErr Table :=
  match ctx with
  | none => .ok res
  | some d => do
      let s ← selectCols ["country", "year", valueCol] d
      pure (leftMerge res s ["country", "year"])

/-- Embedding of `merge_datasets`: return the yield table unchanged when it
already carries all three context columns; otherwise left-join the supplied
pesticides, rainfall and temperature tables in that order. -/
def merge_datasets (yield_df : Table) (pesticides_df rainfall_df temperature_df : Option Table) :
    Except PdErr Table :=
  if hasAllContext yield_df then .ok yield_df
  else do
    let r1 ← mergeStep yield_df pesticides_df "pesticides_tonnes"
    let r2 ← mergeStep r1 rainfall_df "rainfall_mm"
    mergeStep r2 temperature_df "avg_temp"

/-! ### Feature builder (`create_features`, `src/src/features/engineering.py`) -/

/-- `pd.cut` with default `right=True`: edges are closed on the right, so a
value equal to an interior edge falls into the LOWER bucket. -/
def cutRightClosed (edges : List ℚ) (labels : List String) (x : ℚ) : Option String :=
  match edges, labels with
  | [], [l] => some l
  | e :: es, l :: ls => if x ≤ e then some l else cutRightClosed es ls x
  | _, _ => none

/-- `pd.cut(df["avg_temp"], bins=[-inf, 10, 20, 30, inf], labels=...)` on a
single value. -/
def tempCategory (x : ℚ) : Option String :=
  cutRightClosed [10, 20, 30] ["cold", "temperate", "warm", "hot"] x

/-- `pd.cut(df["rainfall_mm"], bins=[-inf, 500, 1000, 2000, inf], labels=...)`
on a single value. -/
def rainfallCategory (x : ℚ) : Option String :=
  cutRightClosed [500, 1000, 2000] ["arid", "semi_arid", "moderate", "wet"] x

/-- A bucketing function lifted to cells: numeric values are labelled,
missing/non-numeric values stay missing (`pd.cut` maps NaN to NaN). -/
def cutCell (f : ℚ → Option String) : Cell → Cell
  | .num q => match f q with
      | some l => .text l
      | none => .na
  | _ => .na

/-- `np.log1p` on a single value. The cells of the table model are exact
rationals, so the (irrational-valued) `log_pesticides` column is embedded
value-wise by this function rather than materialised as a column. -/
noncomputable def log1p (p : ℚ) : ℝ := Real.log (1 + (p : ℝ))

/-- `df["avg_temp"] * df["rainfall_mm"] / 1000` on one row. -/
def interactionCell (r : Row) : Cell :=
  match lookupCell "avg_temp" r, lookupCell "rainfall_mm" r with
  | some (.num t), some (.num rain) => .num (t * rain / 1000)
  | _, _ => .na

/-- Append a derived column computed row-wise. -/
def addCol (name : String) (f : Row → Cell) (df : Table) : Table :=
  { cols := df.cols ++ [name],
    rows := df.rows.map (fun r => r ++ [(name, f r)]) }

/-- Embedding of `create_features`: additively derive `temp_category`,
`rainfall_category` and `temp_rain_interaction` when their source columns
exist (the `log_pesticides` column is embedded value-wise by `log1p`, see
there). -/
def create_features (df : Table) : Table :=
  let df := if "avg_temp" ∈ df.cols then
      addCol "temp_category" (fun r => cutCell tempCategory ((lookupCell "avg_temp" r).getD .na)) df
    else df
  let df := if "rainfall_mm" ∈ df.cols then
      addCol "rainfall_category"
        (fun r => cutCell rainfallCategory ((lookupCell "rainfall_mm" r).getD .na)) df
    else df
  let df := if "avg_temp" ∈ df.cols ∧ "rainfall_mm" ∈ df.cols then
      addCol "temp_rain_interaction" interactionCell df
    else df
  df

/-! ### Helper lemmas on enumeration, rank assignment and slicing -/

theorem enumFrom_map_snd_comp (g : α → β) :
    ∀ (l : List α) (n : ℕ), (List.enumFrom n l).map (fun p => g p.2) = l.map g
  | [], _ => rfl
  | x :: xs, n => by
      simp only [List.enumFrom, List.map_cons]
      rw [enumFrom_map_snd_comp g xs (n + 1)]

theorem enumFrom_map_snd : ∀ (l : List α) (n : ℕ), (List.enumFrom n l).map Prod.snd = l := by
  intro l n
  have h := enumFrom_map_snd_comp (fun a => a) l n
  have h2 : (fun p : ℕ × α => p.2) = Prod.snd := rfl
  rw [← h2, h]
  exact List.map_id l

theorem mem_enumFrom_snd : ∀ {l : List α} {n : ℕ} {p : ℕ × α}, p ∈ List.enumFrom n l → p.2 ∈ l := by
  intro l
  induction l with
  | nil => intro n p h; cases h
  | cons x xs ih =>
      intro n p h
      simp only [List.enumFrom] at h
      rcases List.mem_cons.mp h with rfl | h
      · exact List.mem_cons_self _ _
      · exact List.mem_cons_of_mem _ (ih h)

theorem pairwise_enumFrom {R : α → α → Prop} :
    ∀ (l : List α) (n : ℕ), l.Pairwise R → (List.enumFrom n l).Pairwise (fun a b => R a.2 b.2)
  | [], _, _ => List.Pairwise.nil
  | x :: xs, n, h => by
      rcases List.pairwise_cons.mp h with ⟨hx, hxs⟩
      refine List.pairwise_cons.mpr ⟨?_, pairwise_enumFrom xs (n + 1) hxs⟩
      intro p hp
      exact hx p.2 (mem_enumFrom_snd hp)

theorem enumFrom_length : ∀ (l : List α) (n : ℕ), (List.enumFrom n l).length = l.length
  | [], _ => rfl
  | _ :: xs, n => by simp [List.enumFrom, enumFrom_length xs (n + 1)]

theorem enumFrom_map_rank :
    ∀ (l : List CropRecEntry) (n : ℕ),
      (List.enumFrom n l).map (fun p => p.1 + 1) = List.range' (n + 1) l.length
  | [], _ => rfl
  | x :: xs, n => by
      simp only [List.enumFrom, List.map_cons, List.length_cons, List.range']
      rw [enumFrom_map_rank xs (n + 1)]

theorem assignRanks_map_rank (l : List CropRecEntry) :
    (assignRanks l).map (fun e => e.rank) = List.range' 1 l.length := by
  unfold assignRanks List.enum
  rw [List.map_map]
  have : ((fun e => e.rank) ∘ fun p : ℕ × CropRecEntry => { p.2 with rank := p.1 + 1 }) =
      (fun p : ℕ × CropRecEntry => p.1 + 1) := rfl
  rw [this, enumFrom_map_rank]

theorem assignRanks_map_agnostic (g : CropRecEntry → β)
    (hg : ∀ (c : CropRecEntry) (k : ℕ), g { c with rank := k } = g c)
    (l : List CropRecEntry) : (assignRanks l).map g = l.map g := by
  unfold assignRanks List.enum
  rw [List.map_map]
  have : (g ∘ fun p : ℕ × CropRecEntry => { p.2 with rank := p.1 + 1 }) =
      (fun p : ℕ × CropRecEntry => g p.2) := by
    funext p; exact hg p.2 (p.1 + 1)
  rw [this, enumFrom_map_snd_comp]

theorem assignRanks_length (l : List CropRecEntry) : (assignRanks l).length = l.length := by
  unfold assignRanks List.enum
  rw [List.length_map, enumFrom_length]

theorem mem_assignRanks {l : List CropRecEntry} {e : CropRecEntry} (h : e ∈ assignRanks l) :
    ∃ z ∈ l, e.predicted_yield = z.predicted_yield ∧ e.crop = z.crop := by
  unfold assignRanks at h
  rcases List.mem_map.mp h with ⟨p, hp, rfl⟩
  exact ⟨p.2, mem_enumFrom_snd hp, rfl, rfl⟩

theorem assignRanks_pairwise {R : CropRecEntry → CropRecEntry → Prop}
    (hR : ∀ (a b : CropRecEntry) (i j : ℕ),
      R a b → R { a with rank := i } { b with rank := j }) {l : List CropRecEntry}
    (h : l.Pairwise R) : (assignRanks l).Pairwise R := by
  unfold assignRanks
  refine List.pairwise_map.mpr ?_
  have := pairwise_enumFrom (R := R) l 0 h
  exact this.imp (fun hab => hR _ _ _ _ hab)

/-- Descending order on predicted yield (the sort key of `recommend`). -/
def yieldGe (a b : CropRecEntry) : Prop := b.predicted_yield ≤ a.predicted_yield

theorem stableSortDesc_perm (l : List CropRecEntry) : List.Perm (stableSortDesc l) l := by
  unfold stableSortDesc
  have h := (List.perm_insertionSort rLex l.enum).map Prod.snd
  rwa [show (List.enum l).map Prod.snd = l from enumFrom_map_snd l 0] at h

theorem stableSortDesc_sorted (l : List CropRecEntry) :
    (stableSortDesc l).Pairwise yieldGe := by
  unfold stableSortDesc
  refine List.pairwise_map.mpr ?_
  have h := List.sorted_insertionSort rLex l.enum
  exact h.imp (fun hab => by
    rcases hab with h1 | ⟨h2, _⟩
    · exact le_of_lt h1
    · exact le_of_eq h2.symm)

theorem pySliceTo_mem {n : ℤ} {l : List α} {x : α} (h : x ∈ pySliceTo n l) : x ∈ l := by
  unfold pySliceTo at h
  split at h
  · exact (List.take_sublist _ _).mem h
  · exact (List.take_sublist _ _).mem h

theorem pySliceTo_length_nonneg {n : ℤ} (hn : 0 ≤ n) (l : List α) :
    (pySliceTo n l).length = min n.toNat l.length := by
  unfold pySliceTo
  rw [if_pos hn, List.length_take]

theorem pySliceTo_length_neg {n : ℤ} (hn : n < 0) (l : List α) :
    (pySliceTo n l).length = l.length - (-n).toNat := by
  unfold pySliceTo
  rw [if_neg (by omega), List.length_take]
  omega

/-! ### Helper lemmas on first-occurrence deduplication -/

theorem dedupFirstAux_sublist (key : α → κ) [DecidableEq κ] :
    ∀ (l : List α) (seen : List κ), List.Sublist (dedupFirstAux key seen l) l
  | [], _ => List.Sublist.refl _
  | x :: xs, seen => by
      unfold dedupFirstAux
      split
      · exact (dedupFirstAux_sublist key xs seen).cons x
      · exact (dedupFirstAux_sublist key xs _).cons₂ x

theorem dedupFirstAux_inv (key : α → κ) [DecidableEq κ] :
    ∀ (l : List α) (seen : List κ),
      ((dedupFirstAux key seen l).map key).Nodup ∧
        ∀ y ∈ dedupFirstAux key seen l, key y ∉ seen
  | [], _ => ⟨List.nodup_nil, by intro y h; cases h⟩
  | x :: xs, seen => by
      unfold dedupFirstAux
      split
      · exact dedupFirstAux_inv key xs seen
      · rcases dedupFirstAux_inv key xs (key x :: seen) with ⟨hnd, hseen⟩
        constructor
        · refine List.nodup_cons.mpr ⟨?_, hnd⟩
          intro hmem
          rcases List.mem_map.mp hmem with ⟨y, hy, hky⟩
          exact hseen y hy (by rw [hky]; exact List.mem_cons_self _ _)
        · intro y hy hmem
          rcases List.mem_cons.mp hy with rfl | hy
          · exact (by assumption : key y ∉ seen) hmem
          · exact hseen y hy (List.mem_cons_of_mem _ hmem)

theorem dedupFirstAux_find (key : α → κ) [DecidableEq κ] :
    ∀ (l : List α) (seen : List κ) (y : α), y ∈ dedupFirstAux key seen l →
      l.find? (fun z => decide (key z = key y)) = some y
  | [], _, y, h => by cases h
  | x :: xs, seen, y, h => by
      unfold dedupFirstAux at h
      split at h
      · have hne : key y ≠ key x := by
          intro heq
          exact ((dedupFirstAux_inv key xs seen).2 y h) (heq ▸ (by assumption))
        rw [List.find?_cons_of_neg _ (by simp [Ne.symm hne])]
        exact dedupFirstAux_find key xs seen y h
      · rcases List.mem_cons.mp h with rfl | h
        · rw [List.find?_cons_of_pos _ (by simp)]
        · have hnotin := (dedupFirstAux_inv key xs (key x :: seen)).2 y h
          have hne : key y ≠ key x := fun heq =>
            hnotin (heq ▸ List.mem_cons_self _ _)
          rw [List.find?_cons_of_neg _ (by simp [Ne.symm hne])]
          exact dedupFirstAux_find key xs (key x :: seen) y h

theorem pyOrDefault_of_ne_nil {l : List α} (h : l ≠ []) (d : List α) :
    pyOrDefault (some l) d = l := by
  cases l with
  | nil => exact absurd rfl h
  | cons a t => rfl

/-- C1: for every non-empty candidate crop list and any model predictions,
`recommend_crops` returns entries sorted descending by predicted yield; the
sorted order is the stable one (there is an index-tagged permutation of the
per-crop results, sorted by yield descending and original position ascending
on ties, that projects onto the output); the assigned ranks are exactly the
contiguous sequence 1..N; and truncation by `top_n ≥ 1` returns exactly
`min top_n N` entries. -/
theorem claim_C1_recommend_ranking (model : InRow → ℚ) (country : String)
    (rainfall_mm pesticides_tonnes avg_temp : ℚ) (crops : List String)
    (hne : crops ≠ []) (n : ℤ) (hn : 1 ≤ n) :
    (recommend_crops model country rainfall_mm pesticides_tonnes avg_temp
      (some crops) none).Pairwise yieldGe ∧
    (∃ ps : List (ℕ × CropRecEntry),
      ps.Pairwise rLex ∧
      List.Perm ps
        (buildResults model country rainfall_mm pesticides_tonnes avg_temp crops).enum ∧
      ps.map (fun p => (p.2.crop, p.2.predicted_yield)) =
        (recommend_crops model country rainfall_mm pesticides_tonnes avg_temp
          (some crops) none).map (fun e => (e.crop, e.predicted_yield))) ∧
    (recommend_crops model country rainfall_mm pesticides_tonnes avg_temp
      (some crops) none).map (fun e => e.rank) = List.range' 1 crops.length ∧
    (recommend_crops model country rainfall_mm pesticides_tonnes avg_temp
      (some crops) (some n)).length = min n.toNat crops.length := by
  have hcrops := pyOrDefault_of_ne_nil hne SUPPORTED_CROPS
  set R := buildResults model country rainfall_mm pesticides_tonnes avg_temp crops with hR
  have hRlen : R.length = crops.length := by
    rw [hR]; unfold buildResults; exact List.length_map _ _
  have hslen : (stableSortDesc R).length = R.length :=
    (stableSortDesc_perm R).length_eq
  have hout : recommend_crops model country rainfall_mm pesticides_tonnes avg_temp
      (some crops) none = assignRanks (stableSortDesc R) := by
    unfold recommend_crops
    rw [hcrops]
  have houtn : recommend_crops model country rainfall_mm pesticides_tonnes avg_temp
      (some crops) (some n) = pySliceTo n (assignRanks (stableSortDesc R)) := by
    unfold recommend_crops
    rw [hcrops]
  refine ⟨?_, ?_, ?_, ?_⟩
  · rw [hout]
    exact assignRanks_pairwise (fun a b i j hab => hab) (stableSortDesc_sorted R)
  · refine ⟨R.enum.insertionSort rLex, List.sorted_insertionSort rLex R.enum,
      List.perm_insertionSort rLex R.enum, ?_⟩
    rw [hout,
      assignRanks_map_agnostic (fun e => (e.crop, e.predicted_yield)) (fun c k => rfl)]
    unfold stableSortDesc
    rw [List.map_map]
    rfl
  · rw [hout, assignRanks_map_rank, hslen, hRlen]
  · rw [houtn, pySliceTo_length_nonneg (le_trans (by norm_num) hn),
      assignRanks_length, hslen, hRlen]

theorem claim_C1_witness :
    ((["A", "B"] : List String) ≠ []) ∧ ((1 : ℤ) ≤ 2) ∧
    ((recommend_crops (fun _ => 0) "X" 0 0 0 (some ["A", "B"]) none).Pairwise yieldGe ∧
    (∃ ps : List (ℕ × CropRecEntry),
      ps.Pairwise rLex ∧
      List.Perm ps (buildResults (fun _ => 0) "X" 0 0 0 ["A", "B"]).enum ∧
      ps.map (fun p => (p.2.crop, p.2.predicted_yield)) =
        (recommend_crops (fun _ => 0) "X" 0 0 0 (some ["A", "B"]) none).map
          (fun e => (e.crop, e.predicted_yield))) ∧
    (recommend_crops (fun _ => 0) "X" 0 0 0 (some ["A", "B"]) none).map (fun e => e.rank) =
      List.range' 1 (["A", "B"] : List String).length ∧
    (recommend_crops (fun _ => 0) "X" 0 0 0 (some ["A", "B"]) (some 2)).length =
      min (2 : ℤ).toNat (["A", "B"] : List String).length) :=
  ⟨by decide, by decide,
    claim_C1_recommend_ranking (fun _ => 0) "X" 0 0 0 ["A", "B"] (by decide) 2 (by decide)⟩

/-- C2 counterexample: the claim asserts clamping "on both the predict path
and the recommend path", but `predict_yield` and `recommend_crops` in
`src/src/models/inference.py` return the raw model output: a model
prediction of -5 is reported as -5, not 0, on those paths. -/
theorem claim_C2_counterexample :
    predict_yield (fun _ => -5) "Wheat" "India" 1000 5000 20 = -5 ∧
    ((-5 : ℚ) ≠ 0) ∧
    (recommend_crops (fun _ => -5) "India" 1000 5000 20 (some ["Wheat"]) none).map
      (fun e => e.predicted_yield) = [-5] := by
  refine ⟨rfl, by norm_num, by decide⟩

/-- C2 amended: clamping to ≥ 0 happens on the `ModelLoader` paths
(`src/api/model_loader.py`): `ModelLoader.predict` always returns a
non-negative value and every entry of `ModelLoader.recommend` has a
non-negative predicted yield; the `predict_yield` / `recommend_crops`
functions of `src/src/models/inference.py` do not clamp. -/
theorem claim_C2_amended (L : ModelLoader) (crop country : String)
    (rainfall_mm pesticides_tonnes avg_temp : ℚ) (top_n : Option ℤ) :
    0 ≤ L.predict crop country rainfall_mm pesticides_tonnes avg_temp ∧
    ∀ e ∈ L.recommend country rainfall_mm pesticides_tonnes avg_temp top_n,
      0 ≤ e.predicted_yield := by
  constructor
  · exact le_max_left 0 _
  · intro e he
    unfold ModelLoader.recommend at he
    have hr : e ∈ assignRanks (stableSortDesc (L.supported_crops.map (fun crop =>
        ({ rank := 0, crop := crop,
           predicted_yield := max 0 (L.model
             ⟨crop, country, rainfall_mm, pesticides_tonnes, avg_temp⟩),
           yield_unit := "hg/ha" } : CropRecEntry)))) := by
      cases top_n with
      | none => exact he
      | some n => exact pySliceTo_mem he
    rcases mem_assignRanks hr with ⟨z, hz, hye, _⟩
    have hz' := (stableSortDesc_perm _).mem_iff.mp hz
    rcases List.mem_map.mp hz' with ⟨c, _, rfl⟩
    rw [hye]
    exact le_max_left 0 _

theorem claim_C2_amended_witness :
    0 ≤ (ModelLoader.predict ⟨fun _ => -7, ["A"]⟩ "A" "X" 1 1 1) ∧
    (⟨1, "A", 0, "hg/ha"⟩ : CropRecEntry) ∈
      (ModelLoader.recommend ⟨fun _ => -7, ["A"]⟩ "X" 1 1 1 none) ∧
    0 ≤ (⟨1, "A", 0, "hg/ha"⟩ : CropRecEntry).predicted_yield :=
  ⟨(claim_C2_amended ⟨fun _ => -7, ["A"]⟩ "A" "X" 1 1 1 none).1, by decide,
    (claim_C2_amended ⟨fun _ => -7, ["A"]⟩ "A" "X" 1 1 1 none).2 _ (by decide)⟩

/-- C3 counterexample: for input "wheat" (case-insensitive match with the
supported "Wheat"), `validate_crop` returns `is_supported = True` together
with the suggestion — not `False` as the claim states. -/
theorem claim_C3_counterexample :
    validate_crop "wheat" none = (true, "Did you mean \x27Wheat\x27?") ∧
    (validate_crop "wheat" none).1 ≠ false := by
  refine ⟨by decide, by decide⟩

/-- C3 amended: `validate_crop` returns `(True, "")` on an exact
case-sensitive match; when there is no exact match but a case-insensitive
match exists it returns `is_supported = TRUE` (not False) together with a
"did you mean" suggestion naming the first such supported crop; when no
match exists at all it returns `False` with a message containing
"not supported" and no suggestion. -/
theorem claim_C3_amended (crop : String) (supported : List String) (hne : supported ≠ []) :
    (crop ∈ supported → validate_crop crop (some supported) = (true, "")) ∧
    (crop ∉ supported →
      ∀ s, supported.find? (fun t => pyLower t = pyLower crop) = some s →
        validate_crop crop (some supported) = (true, "Did you mean \x27" ++ s ++ "\x27?")) ∧
    (crop ∉ supported →
      supported.find? (fun t => pyLower t = pyLower crop) = none →
        validate_crop crop (some supported) =
          (false, "Crop \x27" ++ crop ++ "\x27 is not supported. Supported crops: " ++
            "[" ++ String.intercalate ", "
              (supported.map (fun s => "\x27" ++ s ++ "\x27")) ++ "]")) := by
  unfold validate_crop
  rw [pyOrDefault_of_ne_nil hne]
  refine ⟨fun h => ?_, fun h s hs => ?_, fun h hs => ?_⟩
  · rw [if_pos h]
  · rw [if_neg h, hs]
  · rw [if_neg h, hs]

theorem claim_C3_amended_witness :
    ((SUPPORTED_CROPS : List String) ≠ []) ∧
    ("wheat" ∉ SUPPORTED_CROPS) ∧
    SUPPORTED_CROPS.find? (fun t => pyLower t = pyLower "wheat") = some "Wheat" ∧
    validate_crop "wheat" (some SUPPORTED_CROPS) =
      (true, "Did you mean \x27" ++ "Wheat" ++ "\x27?") :=
  ⟨by decide, by decide, by decide,
    (claim_C3_amended "wheat" SUPPORTED_CROPS (by decide)).2.1 (by decide) "Wheat" (by decide)⟩

/-- C4 counterexample: `recommend` performs no `top_n` validation. With
`top_n = 0` it returns the empty result list instead of failing, and with
`top_n = -1` Python slicing silently drops the last entry. No
`InvalidArgumentError` exists anywhere in the repository. -/
theorem claim_C4_counterexample :
    recommend_crops (fun _ => 0) "X" 0 0 0 (some ["A", "B"]) (some 0) = [] ∧
    (recommend_crops (fun _ => 0) "X" 0 0 0 (some ["A", "B"]) (some (-1))).map
      (fun e => e.crop) = ["A"] := by
  refine ⟨by decide, by decide⟩

/-- C4 amended: `recommend` does not validate `top_n`; the truncation is
Python slicing `results[:top_n]`: `top_n = 0` yields an empty list and a
negative `top_n` drops entries from the end. (The only `top_n ≥ 1`
enforcement in the repository is the HTTP request schema's `ge=1` field
constraint, outside the recommend functions.) -/
theorem claim_C4_amended (model : InRow → ℚ) (country : String)
    (rainfall_mm pesticides_tonnes avg_temp : ℚ) (crops : List String)
    (hne : crops ≠ []) (n : ℤ) :
    recommend_crops model country rainfall_mm pesticides_tonnes avg_temp
      (some crops) (some 0) = [] ∧
    (n < 0 → (recommend_crops model country rainfall_mm pesticides_tonnes avg_temp
      (some crops) (some n)).length = crops.length - (-n).toNat) := by
  have hcrops := pyOrDefault_of_ne_nil hne SUPPORTED_CROPS
  constructor
  · unfold recommend_crops
    rw [hcrops]
    show pySliceTo 0 (assignRanks (stableSortDesc
      (buildResults model country rainfall_mm pesticides_tonnes avg_temp crops))) = []
    unfold pySliceTo
    rw [if_pos le_rfl]
    exact List.take_zero _
  · intro hn
    unfold recommend_crops
    rw [hcrops]
    show (pySliceTo n (assignRanks (stableSortDesc
      (buildResults model country rainfall_mm pesticides_tonnes avg_temp crops)))).length =
      crops.length - (-n).toNat
    rw [pySliceTo_length_neg hn, assignRanks_length, (stableSortDesc_perm _).length_eq]
    unfold buildResults
    rw [List.length_map]

theorem claim_C4_amended_witness :
    ((["A", "B"] : List String) ≠ []) ∧ ((-1 : ℤ) < 0) ∧
    recommend_crops (fun _ => 3) "X" 0 0 0 (some ["A", "B"]) (some 0) = [] ∧
    (recommend_crops (fun _ => 3) "X" 0 0 0 (some ["A", "B"]) (some (-1))).length =
      (["A", "B"] : List String).length - ((-(-1) : ℤ)).toNat :=
  ⟨by decide, by decide,
    (claim_C4_amended (fun _ => 3) "X" 0 0 0 ["A", "B"] (by decide) (-1)).1,
    (claim_C4_amended (fun _ => 3) "X" 0 0 0 ["A", "B"] (by decide) (-1)).2 (by decide)⟩

/-- C10: calling `recommend_crops` with an explicitly empty candidate list
does not return an empty result: `crops or SUPPORTED_CROPS` replaces the
(falsy) empty list with the full default list, so the output has exactly one
entry per default crop — ten entries. -/
theorem claim_C10_empty_crops_default (model : InRow → ℚ) (country : String)
    (rainfall_mm pesticides_tonnes avg_temp : ℚ) :
    (recommend_crops model country rainfall_mm pesticides_tonnes avg_temp
      (some []) none).length = 10 ∧
    List.Perm ((recommend_crops model country rainfall_mm pesticides_tonnes avg_temp
      (some []) none).map (fun e => e.crop)) SUPPORTED_CROPS := by
  have hout : recommend_crops model country rainfall_mm pesticides_tonnes avg_temp
      (some []) none = assignRanks (stableSortDesc
        (buildResults model country rainfall_mm pesticides_tonnes avg_temp
          SUPPORTED_CROPS)) := rfl
  constructor
  · rw [hout, assignRanks_length, (stableSortDesc_perm _).length_eq]
    unfold buildResults
    rw [List.length_map]
    rfl
  · rw [hout, assignRanks_map_agnostic (fun e => e.crop) (fun c k => rfl)]
    have hperm := (stableSortDesc_perm
      (buildResults model country rainfall_mm pesticides_tonnes avg_temp
        SUPPORTED_CROPS)).map (fun e => e.crop)
    have hmap : (buildResults model country rainfall_mm pesticides_tonnes avg_temp
        SUPPORTED_CROPS).map (fun e => e.crop) = SUPPORTED_CROPS := by
      unfold buildResults
      rw [List.map_map]
      exact List.map_id _
    rwa [hmap] at hperm

/-- C5 counterexample: `pd.cut` with the default `right=True` produces bins
closed on the RIGHT, so the boundary value `avg_temp = 10` lands in the
lower bucket: the feature builder labels it "cold", not "temperate" as the
claim states. -/
theorem claim_C5_counterexample :
    create_features ⟨["avg_temp"], [[("avg_temp", Cell.num 10)]]⟩ =
      ⟨["avg_temp", "temp_category"],
       [[("avg_temp", Cell.num 10), ("temp_category", Cell.text "cold")]]⟩ ∧
    Cell.text "cold" ≠ Cell.text "temperate" := by
  refine ⟨by decide, by decide⟩

/-- C5 amended: boundary values fall into the LOWER bucket (bin edges are
closed on the right): a row with `avg_temp = 10` gets temp_category "cold"
(not "temperate"), `avg_temp = 9.999` also gets "cold", `rainfall_mm = 500`
gets rainfall_category "arid" (not "semi_arid"); and `pesticides_tonnes = 0`
gets `log_pesticides = log1p 0 = 0`. -/
theorem claim_C5_amended :
    create_features ⟨["avg_temp"], [[("avg_temp", Cell.num 10)]]⟩ =
      ⟨["avg_temp", "temp_category"],
       [[("avg_temp", Cell.num 10), ("temp_category", Cell.text "cold")]]⟩ ∧
    create_features ⟨["rainfall_mm"], [[("rainfall_mm", Cell.num 500)]]⟩ =
      ⟨["rainfall_mm", "rainfall_category"],
       [[("rainfall_mm", Cell.num 500), ("rainfall_category", Cell.text "arid")]]⟩ ∧
    create_features ⟨["avg_temp"], [[("avg_temp", Cell.num (9999 / 1000))]]⟩ =
      ⟨["avg_temp", "temp_category"],
       [[("avg_temp", Cell.num (9999 / 1000)), ("temp_category", Cell.text "cold")]]⟩ ∧
    log1p 0 = 0 := by
  refine ⟨by decide, by decide, ?_, ?_⟩
  · have h : ((9999 : ℚ) / 1000) ≤ 10 := by norm_num
    simp [create_features, addCol, cutCell, tempCategory, cutRightClosed,
      lookupCell, List.find?, h]
  · unfold log1p
    norm_num

/-- C6 counterexample: the context cleaner called with a type tag other than
the three known ones does not fail at all (no `ConfigurationError` class
exists in the repository): it skips the per-type selection and successfully
runs the common country-standardization / year-coercion / deduplication
steps. -/
theorem claim_C6_counterexample :
    clean_context_data
      ⟨["country", "year", "pesticides_tonnes"],
       [[("country", Cell.text " USA "), ("year", Cell.num 2000),
         ("pesticides_tonnes", Cell.num 1)],
        [("country", Cell.text "USA"), ("year", Cell.num 2000),
         ("pesticides_tonnes", Cell.num 2)]]⟩ "bogus" =
      .ok ⟨["country", "year", "pesticides_tonnes"],
       [[("country", Cell.text "United States"), ("year", Cell.num 2000),
         ("pesticides_tonnes", Cell.num 1)]]⟩ := by
  decide

/-- C6 amended: `clean_context_data` performs no type-tag validation and
raises no `ConfigurationError` (none exists in the repository). For every
unknown tag the table is passed through unmodified to the common tail
(country standardization, year coercion, duplicate-key removal), which can
fail only with the pandas key/value errors of those steps. -/
theorem claim_C6_amended (df : Table) (tag : String)
    (h1 : tag ≠ "pesticides") (h2 : tag ≠ "rainfall") (h3 : tag ≠ "temperature") :
    clean_context_data df tag = ctxCommonTail df := by
  unfold clean_context_data
  rw [if_neg h1, if_neg h2, if_neg h3]
  rfl

theorem claim_C6_amended_witness :
    (("bogus" : String) ≠ "pesticides") ∧ (("bogus" : String) ≠ "rainfall") ∧
    (("bogus" : String) ≠ "temperature") ∧
    clean_context_data ⟨["country", "year"], []⟩ "bogus" =
      ctxCommonTail ⟨["country", "year"], []⟩ :=
  ⟨by decide, by decide, by decide,
    claim_C6_amended ⟨["country", "year"], []⟩ "bogus" (by decide) (by decide) (by decide)⟩

/-! ### C9: idempotence of the country-name normalizer -/

theorem lookup_mem {l : List (String × String)} :
    ∀ {k c : String}, l.lookup k = some c → (k, c) ∈ l := by
  induction l with
  | nil => intro k c h; cases h
  | cons a l ih =>
      intro k c h
      rw [List.lookup] at h
      cases hbeq : k == a.1 with
      | true =>
          rw [hbeq] at h
          have hk : k = a.1 := beq_iff_eq.mp hbeq
          have hc : a.2 = c := by
            have h' : some a.2 = some c := h
            injection h'
          rw [hk, ← hc]
          exact List.mem_cons_self _ _
      | false =>
          rw [hbeq] at h
          exact List.mem_cons_of_mem _ (ih h)

theorem country_mapping_values_fixed :
    ∀ p ∈ COUNTRY_MAPPING, pyStrip p.2 = p.2 ∧ COUNTRY_MAPPING.lookup p.2 = none := by
  decide

theorem stdCountryCell_idem (c : Cell) : stdCountryCell (stdCountryCell c) = stdCountryCell c := by
  cases c with
  | na => rfl
  | num q => rfl
  | text s =>
      have h1 : stdCountryCell (Cell.text s) =
          Cell.text ((COUNTRY_MAPPING.lookup (pyStrip s)).getD (pyStrip s)) := rfl
      cases h : COUNTRY_MAPPING.lookup (pyStrip s) with
      | none =>
          rw [h1, h]
          show stdCountryCell (Cell.text (pyStrip s)) = Cell.text (pyStrip s)
          have h2 : stdCountryCell (Cell.text (pyStrip s)) =
              Cell.text ((COUNTRY_MAPPING.lookup (pyStrip (pyStrip s))).getD
                (pyStrip (pyStrip s))) := rfl
          rw [h2, pyStrip_idem, h]
          rfl
      | some c =>
          rcases country_mapping_values_fixed _ (lookup_mem h) with ⟨hstrip, hlook⟩
          have hstrip' : pyStrip c = c := hstrip
          have hlook' : List.lookup c COUNTRY_MAPPING = none := hlook
          rw [h1, h]
          show stdCountryCell (Cell.text c) = Cell.text c
          have h2 : stdCountryCell (Cell.text c) =
              Cell.text ((COUNTRY_MAPPING.lookup (pyStrip c)).getD (pyStrip c)) := rfl
          rw [h2, hstrip', hlook']
          rfl

theorem updateCell_comp (c : String) (f g : Cell → Cell) (r : Row) :
    updateCell c f (updateCell c g r) = updateCell c (fun x => f (g x)) r := by
  unfold updateCell
  rw [List.map_map]
  congr 1
  funext kv
  by_cases h : kv.1 = c
  · simp [h]
  · simp [h]

/-- C9: the country-name normalizer is idempotent — applying it twice equals
applying it once on every table — and its per-value action substitutes every
alias of the fixed mapping by its canonical form while all other values pass
through unchanged after whitespace stripping. -/
theorem claim_C9_country_normalizer (df : Table) (country_col : String) :
    standardize_country_names country_col (standardize_country_names country_col df) =
      standardize_country_names country_col df ∧
    (∀ p ∈ COUNTRY_MAPPING, stdCountryCell (Cell.text p.1) = Cell.text p.2) ∧
    (∀ s : String, COUNTRY_MAPPING.lookup (pyStrip s) = none →
      stdCountryCell (Cell.text s) = Cell.text (pyStrip s)) := by
  refine ⟨?_, by decide, ?_⟩
  · unfold standardize_country_names
    by_cases h : country_col ∈ df.cols
    · rw [if_pos h]
      have hcols : (mapCol country_col stdCountryCell df).cols = df.cols := rfl
      rw [if_pos (hcols ▸ h)]
      show mapCol country_col stdCountryCell (mapCol country_col stdCountryCell df) =
        mapCol country_col stdCountryCell df
      unfold mapCol
      simp only [List.map_map]
      have hfun : updateCell country_col stdCountryCell ∘ updateCell country_col stdCountryCell
          = updateCell country_col stdCountryCell := by
        funext r
        show updateCell country_col stdCountryCell (updateCell country_col stdCountryCell r) =
          updateCell country_col stdCountryCell r
        rw [updateCell_comp]
        have hstd : (fun x => stdCountryCell (stdCountryCell x)) = stdCountryCell :=
          funext stdCountryCell_idem
        rw [hstd]
      rw [hfun]
    · simp only [if_neg h]
  · intro s hs
    have h1 : stdCountryCell (Cell.text s) =
        Cell.text ((COUNTRY_MAPPING.lookup (pyStrip s)).getD (pyStrip s)) := rfl
    rw [h1, hs]
    rfl

theorem claim_C9_witness :
    (("USA", "United States") ∈ COUNTRY_MAPPING) ∧
    stdCountryCell (Cell.text "USA") = Cell.text "United States" ∧
    COUNTRY_MAPPING.lookup (pyStrip " France ") = none ∧
    stdCountryCell (Cell.text " France ") = Cell.text (pyStrip " France ") :=
  ⟨by decide,
    (claim_C9_country_normalizer ⟨[], []⟩ "country").2.1 ("USA", "United States") (by decide),
    by decide,
    (claim_C9_country_normalizer ⟨[], []⟩ "country").2.2 " France " (by decide)⟩

/-! ### C8: the yield cleaner's output guarantees -/

theorem standardize_country_cols (c : String) (df : Table) :
    (standardize_country_names c df).cols = df.cols := by
  unfold standardize_country_names
  split <;> rfl

theorem yieldStage1_cols (df : Table) :
    (yieldStage1 df).cols = (standardize_column_names COLUMN_MAPPING df).cols := by
  unfold yieldStage1
  dsimp only
  split
  · exact standardize_country_cols _ _
  · exact standardize_country_cols _ _

theorem yearAsInt_cols {df df' : Table} (h : yearAsInt df = .ok df') : df'.cols = df.cols := by
  unfold yearAsInt at h
  split at h
  · cases hm : df.rows.mapM (fun r =>
        match lookupCell "year" r with
        | some c => do
            let c' ← cellAsInt c
            pure (updateCell "year" (fun _ => c') r)
        | none => .error (.valueError "missing year cell")) with
    | error e => rw [hm] at h; cases h
    | ok rs =>
        rw [hm] at h
        have h' : Except.ok (ε := PdErr) ({ df with rows := rs } : Table) = Except.ok df' := h
        cases h'
        rfl
  · cases h

theorem foldlNumeric_cols :
    ∀ (cs : List String) (df : Table),
      (cs.foldl (fun d c => if c ∈ d.cols then toNumericCol c d else d) df).cols = df.cols
  | [], _ => rfl
  | c :: cs, df => by
      show (cs.foldl (fun d c => if c ∈ d.cols then toNumericCol c d else d)
        (if c ∈ df.cols then toNumericCol c df else df)).cols = df.cols
      rw [foldlNumeric_cols cs _]
      split <;> rfl

theorem yieldStage3_cols (df : Table) : (yieldStage3 df).cols = df.cols := by
  unfold yieldStage3
  dsimp only
  split
  · exact foldlNumeric_cols _ df
  · exact foldlNumeric_cols _ df

/-- C8: for every input whose standardized form carries the country, crop,
year and yield columns, a successful run of the yield cleaner yields a table
with no missing yield value and no duplicate (country, crop, year) key; the
output is a sublist of the pre-deduplication rows (the target is dropped,
never imputed) and each surviving row is the first pre-deduplication row
with its key. -/
theorem claim_C8_yield_cleaner (df mid out : Table)
    (hmid : cleanYieldPreDedup df = .ok mid)
    (hout : clean_yield_data df = .ok out)
    (hcountry : "country" ∈ (standardize_column_names COLUMN_MAPPING df).cols)
    (hcrop : "crop" ∈ (standardize_column_names COLUMN_MAPPING df).cols)
    (hyear : "year" ∈ (standardize_column_names COLUMN_MAPPING df).cols)
    (hyield : "yield" ∈ (standardize_column_names COLUMN_MAPPING df).cols) :
    (∀ r ∈ out.rows, ∃ c, lookupCell "yield" r = some c ∧ c ≠ Cell.na) ∧
    (out.rows.map (rowKey ["country", "crop", "year"])).Nodup ∧
    List.Sublist out.rows mid.rows ∧
    (∀ r ∈ out.rows,
      mid.rows.find? (fun z =>
        decide (rowKey ["country", "crop", "year"] z =
          rowKey ["country", "crop", "year"] r)) = some r) := by
  cases h2 : yieldStage2 (yieldStage1 df) with
  | error e =>
      unfold cleanYieldPreDedup at hmid
      rw [h2] at hmid
      cases hmid
  | ok dfa =>
      have hmid' : mid = yieldStage3 dfa := by
        unfold cleanYieldPreDedup at hmid
        rw [h2] at hmid
        have h' : Except.ok (ε := PdErr) (yieldStage3 dfa) = Except.ok mid := hmid
        cases h'
        rfl
      have hacols : dfa.cols = (standardize_column_names COLUMN_MAPPING df).cols := by
        have h1 := yieldStage1_cols df
        unfold yieldStage2 at h2
        split at h2
        · exact (yearAsInt_cols h2).trans h1
        · have h' : Except.ok (ε := PdErr) (yieldStage1 df) = Except.ok dfa := h2
          cases h'
          exact h1
      have hmcols : mid.cols = (standardize_column_names COLUMN_MAPPING df).cols := by
        rw [hmid', yieldStage3_cols, hacols]
      set dfb := ["yield", "rainfall_mm", "pesticides_tonnes", "avg_temp"].foldl
        (fun d c => if c ∈ d.cols then toNumericCol c d else d) dfa with hdfb
      have hybi : "yield" ∈ dfb.cols := by
        rw [hdfb, foldlNumeric_cols, hacols]
        exact hyield
      have hmrows : mid.rows = dfb.rows.filter (fun r =>
          match lookupCell "yield" r with
          | some Cell.na => false
          | none => false
          | _ => true) := by
        rw [hmid']
        unfold yieldStage3
        rw [← hdfb, if_pos hybi]
        rfl
      have hkey : (["country", "crop", "year"].filter (fun c => c ∈ mid.cols)) =
          ["country", "crop", "year"] := by
        apply List.filter_eq_self.mpr
        intro a ha
        have ha3 : a = "country" ∨ a = "crop" ∨ a = "year" := by simpa using ha
        rcases ha3 with rfl | rfl | rfl
        · exact decide_eq_true (by rw [hmcols]; exact hcountry)
        · exact decide_eq_true (by rw [hmcols]; exact hcrop)
        · exact decide_eq_true (by rw [hmcols]; exact hyear)
      have hall : (["country", "crop", "year"].all (fun c => c ∈ mid.cols)) = true := by
        apply List.all_eq_true.mpr
        intro c hc
        have hc3 : c = "country" ∨ c = "crop" ∨ c = "year" := by simpa using hc
        rcases hc3 with rfl | rfl | rfl
        · exact decide_eq_true (by rw [hmcols]; exact hcountry)
        · exact decide_eq_true (by rw [hmcols]; exact hcrop)
        · exact decide_eq_true (by rw [hmcols]; exact hyear)
      have hout' : out.rows = dedupFirstAux (rowKey ["country", "crop", "year"]) [] mid.rows := by
        unfold clean_yield_data at hout
        rw [hmid] at hout
        have h3 : (if (["country", "crop", "year"].filter (fun c => c ∈ mid.cols)).isEmpty
            then (pure mid : Except PdErr Table)
            else dropDupSubset (["country", "crop", "year"].filter (fun c => c ∈ mid.cols)) mid) =
            Except.ok out := hout
        rw [hkey] at h3
        rw [if_neg (by decide)] at h3
        unfold dropDupSubset at h3
        rw [if_pos hall] at h3
        have h4 : Except.ok (ε := PdErr)
            ({ mid with rows := dedupFirstAux (rowKey ["country", "crop", "year"]) [] mid.rows } :
              Table) = Except.ok out := h3
        cases h4
        rfl
      refine ⟨?_, ?_, ?_, ?_⟩
      · intro r hr
        rw [hout'] at hr
        have hrmid : r ∈ mid.rows := (dedupFirstAux_sublist _ _ _).mem hr
        rw [hmrows] at hrmid
        have hp := (List.mem_filter.mp hrmid).2
        cases hc : lookupCell "yield" r with
        | none => rw [hc] at hp; cases hp
        | some c =>
            cases c with
            | na => rw [hc] at hp; cases hp
            | text s => exact ⟨.text s, rfl, by intro hh; cases hh⟩
            | num q => exact ⟨.num q, rfl, by intro hh; cases hh⟩
      · rw [hout']
        exact (dedupFirstAux_inv _ _ _).1
      · rw [hout']
        exact dedupFirstAux_sublist _ _ _
      · intro r hr
        rw [hout'] at hr
        exact dedupFirstAux_find _ _ _ _ hr

/-- Concrete input for the C8 witness: raw column names, one duplicate
(country, crop, year) key and one missing yield. -/
def c8df : Table :=
  ⟨["Area", "Item", "Year", "hg/ha_yield"],
   [[("Area", .text "X"), ("Item", .text "W"), ("Year", .num 2000), ("hg/ha_yield", .num 5)],
    [("Area", .text "X"), ("Item", .text "W"), ("Year", .num 2000), ("hg/ha_yield", .num 6)],
    [("Area", .text "Y"), ("Item", .text "W"), ("Year", .num 2001), ("hg/ha_yield", .na)]]⟩

/-- Pre-deduplication result of the yield cleaner on `c8df`. -/
def c8mid : Table :=
  ⟨["country", "crop", "year", "yield"],
   [[("country", .text "X"), ("crop", .text "W"), ("year", .num 2000), ("yield", .num 5)],
    [("country", .text "X"), ("crop", .text "W"), ("year", .num 2000), ("yield", .num 6)]]⟩

/-- Final result of the yield cleaner on `c8df`. -/
def c8out : Table :=
  ⟨["country", "crop", "year", "yield"],
   [[("country", .text "X"), ("crop", .text "W"), ("year", .num 2000), ("yield", .num 5)]]⟩

theorem claim_C8_witness :
    cleanYieldPreDedup c8df = .ok c8mid ∧
    clean_yield_data c8df = .ok c8out ∧
    "country" ∈ (standardize_column_names COLUMN_MAPPING c8df).cols ∧
    "crop" ∈ (standardize_column_names COLUMN_MAPPING c8df).cols ∧
    "year" ∈ (standardize_column_names COLUMN_MAPPING c8df).cols ∧
    "yield" ∈ (standardize_column_names COLUMN_MAPPING c8df).cols ∧
    ((∀ r ∈ c8out.rows, ∃ c, lookupCell "yield" r = some c ∧ c ≠ Cell.na) ∧
     (c8out.rows.map (rowKey ["country", "crop", "year"])).Nodup ∧
     List.Sublist c8out.rows c8mid.rows ∧
     (∀ r ∈ c8out.rows,
       c8mid.rows.find? (fun z =>
         decide (rowKey ["country", "crop", "year"] z =
           rowKey ["country", "crop", "year"] r)) = some r)) :=
  ⟨by decide, by decide, by decide, by decide, by decide, by decide,
   claim_C8_yield_cleaner c8df c8mid c8out (by decide) (by decide) (by decide) (by decide)
     (by decide) (by decide)⟩

/-! ### C7: fusion-engine lemmas -/

theorem mem_flatMap_of_mem {f : α → List β} {l : List α} {a : α} {b : β}
    (ha : a ∈ l) (hb : b ∈ f a) : b ∈ l.flatMap f := by
  induction l with
  | nil => cases ha
  | cons x xs ih =>
      rcases List.mem_cons.mp ha with rfl | ha
      · exact List.mem_append.mpr (Or.inl hb)
      · exact List.mem_append.mpr (Or.inr (ih ha))

theorem lookupCell_append_of_none {c : String} {r1 : Row} (r2 : Row)
    (h : lookupCell c r1 = none) : lookupCell c (r1 ++ r2) = lookupCell c r2 := by
  unfold lookupCell at *
  induction r1 with
  | nil => rfl
  | cons kv r1 ih =>
      rw [List.cons_append]
      by_cases hk : kv.1 = c
      · rw [List.find?_cons_of_pos _ (by simp [hk])] at h
        cases h
      · rw [List.find?_cons_of_neg _ (by simp [hk])] at h
        rw [List.find?_cons_of_neg _ (by simp [hk])]
        exact ih h

theorem lookupCell_append_of_some {c : String} {r1 : Row} {x : Cell} (r2 : Row)
    (h : lookupCell c r1 = some x) : lookupCell c (r1 ++ r2) = some x := by
  unfold lookupCell at *
  induction r1 with
  | nil => cases h
  | cons kv r1 ih =>
      rw [List.cons_append]
      by_cases hk : kv.1 = c
      · rw [List.find?_cons_of_pos _ (by simp [hk])] at h ⊢
        exact h
      · rw [List.find?_cons_of_neg _ (by simp [hk])] at h
        rw [List.find?_cons_of_neg _ (by simp [hk])]
        exact ih h

theorem lookupCell_singleton_self (c : String) (x : Cell) :
    lookupCell c [(c, x)] = some x := by
  unfold lookupCell
  rw [List.find?_cons_of_pos _ (by simp)]
  rfl

theorem lookupCell_singleton_ne {c v : String} (x : Cell) (h : c ≠ v) :
    lookupCell c [(v, x)] = none := by
  unfold lookupCell
  rw [List.find?_cons_of_neg _ (by simp [Ne.symm h])]
  rfl

theorem lookupCell_none_of_not_mem_keys {c : String} {r : Row}
    (h : c ∉ r.map Prod.fst) : lookupCell c r = none := by
  unfold lookupCell
  induction r with
  | nil => rfl
  | cons kv r ih =>
      rw [List.map_cons] at h
      rw [List.find?_cons_of_neg _ (by simp; intro he; exact h (by rw [he]; exact List.mem_cons_self _ _))]
      exact ih (fun hm => h (List.mem_cons_of_mem _ hm))

theorem lookupCell_some_of_mem_keys {c : String} {r : Row}
    (h : c ∈ r.map Prod.fst) : ∃ x, lookupCell c r = some x := by
  unfold lookupCell
  induction r with
  | nil => cases h
  | cons kv r ih =>
      by_cases hk : kv.1 = c
      · exact ⟨kv.2, by rw [List.find?_cons_of_pos _ (by simp [hk])]; rfl⟩
      · rw [List.map_cons] at h
        rcases List.mem_cons.mp h with rfl | h
        · exact absurd rfl hk
        · rcases ih h with ⟨x, hx⟩
          exact ⟨x, by rw [List.find?_cons_of_neg _ (by simp [hk])]; exact hx⟩

theorem lookupCell_map_cols {c : String} {cs : List String} (g : String → Cell)
    (h : c ∈ cs) : lookupCell c (cs.map (fun c' => (c', g c'))) = some (g c) := by
  induction cs with
  | nil => cases h
  | cons c' cs ih =>
      by_cases hk : c' = c
      · subst hk
        unfold lookupCell
        rw [List.map_cons, List.find?_cons_of_pos _ (by simp)]
        rfl
      · rcases List.mem_cons.mp h with rfl | h
        · exact absurd rfl hk
        · unfold lookupCell at ih ⊢
          rw [List.map_cons, List.find?_cons_of_neg _ (by simp [hk])]
          exact ih h

theorem selectCols_ok {cs : List String} {d s : Table} (h : selectCols cs d = .ok s) :
    s.cols = cs ∧
    s.rows = d.rows.map (fun r => cs.map (fun c => (c, (lookupCell c r).getD Cell.na))) ∧
    ∀ c ∈ cs, c ∈ d.cols := by
  unfold selectCols at h
  split at h
  · have h' : Except.ok (ε := PdErr)
        ({ cols := cs,
           rows := d.rows.map (fun r => cs.map (fun c => (c, (lookupCell c r).getD Cell.na))) } :
          Table) = Except.ok s := h
    cases h'
    refine ⟨rfl, rfl, ?_⟩
    intro c hc
    have hall : cs.all (fun c => c ∈ d.cols) = true := by assumption
    exact of_decide_eq_true (List.all_eq_true.mp hall c hc)
  · cases h

/-- Effect of one optional merge step on a single left row: the row is
retained (extended by the context value column or by nothing), and when the
supplied context table has no key match for the row, the appended context
value is missing. -/
theorem mergeStep_row {res out : Table} {ctx : Option Table} {v : String}
    (hvc : v ≠ "country") (hvy : v ≠ "year")
    (h : mergeStep res ctx v = .ok out) {lr : Row} (hlr : lr ∈ res.rows) :
    ∃ ext : Row,
      (lr ++ ext) ∈ out.rows ∧
      (ext = [] ∨ ∃ w, ext = [(v, w)]) ∧
      (∀ d, ctx = some d →
        (∀ rr ∈ d.rows, rr.map Prod.fst = d.cols) →
        (∀ rr ∈ d.rows, ¬(lookupCell "country" rr = lookupCell "country" lr ∧
          lookupCell "year" rr = lookupCell "year" lr)) →
        ext = [(v, Cell.na)]) := by
  cases ctx with
  | none =>
      have h' : Except.ok (ε := PdErr) res = Except.ok out := h
      cases h'
      refine ⟨[], by rw [List.append_nil]; exact hlr, Or.inl rfl, ?_⟩
      intro d hd
      cases hd
  | some d =>
      have h2 : (do
          let s ← selectCols ["country", "year", v] d
          pure (leftMerge res s ["country", "year"]) : Except PdErr Table) = Except.ok out := h
      cases hs : selectCols ["country", "year", v] d with
      | error e =>
          rw [hs] at h2
          cases h2
      | ok s =>
          have hout : out = leftMerge res s ["country", "year"] := by
            rw [hs] at h2
            have h' : Except.ok (ε := PdErr) (leftMerge res s ["country", "year"]) =
              Except.ok out := h2
            cases h'
            rfl
          rcases selectCols_ok hs with ⟨hscols, hsrows, hsmem⟩
          have hnew : s.cols.filter (fun c => c ∉ (["country", "year"] : List String)) = [v] := by
            rw [hscols]
            simp [hvc, hvy]
          cases hf : s.rows.filter
              (fun rr => (["country", "year"] : List String).all
                (fun c => lookupCell c rr = lookupCell c lr)) with
          | nil =>
              refine ⟨[(v, Cell.na)], ?_, Or.inr ⟨Cell.na, rfl⟩, fun d' hd' _ _ => rfl⟩
              rw [hout]
              unfold leftMerge
              dsimp only
              apply mem_flatMap_of_mem hlr
              dsimp only
              rw [hf, hnew]
              simp
          | cons rr ms =>
              refine ⟨[(v, (lookupCell v rr).getD Cell.na)], ?_, Or.inr ⟨_, rfl⟩, ?_⟩
              · rw [hout]
                unfold leftMerge
                dsimp only
                apply mem_flatMap_of_mem hlr
                dsimp only
                rw [hf, hnew]
                simp only [List.isEmpty_cons, Bool.false_eq_true, if_false]
                exact List.mem_map.mpr ⟨rr, List.mem_cons_self _ _, rfl⟩
              · intro d' hd' hdwf hnm
                have hd'' : d' = d := by cases hd'; rfl
                subst hd''
                exfalso
                have hrrmem : rr ∈ s.rows.filter
                    (fun rr => (["country", "year"] : List String).all
                      (fun c => lookupCell c rr = lookupCell c lr)) := by
                  rw [hf]
                  exact List.mem_cons_self _ _
                rcases List.mem_filter.mp hrrmem with ⟨hrs, hpred⟩
                have heqc : lookupCell "country" rr = lookupCell "country" lr :=
                  of_decide_eq_true (List.all_eq_true.mp hpred "country" (by simp))
                have heqy : lookupCell "year" rr = lookupCell "year" lr :=
                  of_decide_eq_true (List.all_eq_true.mp hpred "year" (by simp))
                rw [hsrows] at hrs
                rcases List.mem_map.mp hrs with ⟨orig, horig, rfl⟩
                rcases lookupCell_some_of_mem_keys
                    (c := "country") (r := orig)
                    (by rw [hdwf orig horig]; exact hsmem "country" (by simp)) with ⟨xc, hxc⟩
                rcases lookupCell_some_of_mem_keys
                    (c := "year") (r := orig)
                    (by rw [hdwf orig horig]; exact hsmem "year" (by simp)) with ⟨xy, hxy⟩
                have hlc : lookupCell "country"
                    ((["country", "year", v] : List String).map
                      (fun c => (c, (lookupCell c orig).getD Cell.na))) = some xc := by
                  rw [lookupCell_map_cols _ (by simp), hxc]
                  rfl
                have hly : lookupCell "year"
                    ((["country", "year", v] : List String).map
                      (fun c => (c, (lookupCell c orig).getD Cell.na))) = some xy := by
                  rw [lookupCell_map_cols _ (by simp), hxy]
                  rfl
                apply hnm orig horig
                constructor
                · rw [hxc, ← hlc]
                  exact heqc
                · rw [hxy, ← hly]
                  exact heqy

/-- Appending a merge extension (empty or a single context-column pair) does
not change lookups of other columns. -/
theorem lookup_append_ext {c v : String} {lr ext : Row}
    (hshape : ext = [] ∨ ∃ w, ext = [(v, w)]) (hc : c ≠ v) :
    lookupCell c (lr ++ ext) = lookupCell c lr := by
  cases hlook : lookupCell c lr with
  | some x =>
      exact lookupCell_append_of_some ext hlook
  | none =>
      rw [lookupCell_append_of_none ext hlook]
      rcases hshape with rfl | ⟨w, rfl⟩
      · rfl
      · exact lookupCell_singleton_ne w hc

/-- C7: if the yield table already carries all three context columns, fusion
returns it unchanged no matter which context tables are supplied; otherwise
every yield row is retained in the output — agreeing with the input row on
all of the yield table's columns — and for each supplied, well-formed
context table with no (country, year) match for that row, the corresponding
context column of the output row is missing. -/
theorem claim_C7_fusion (ydf : Table) (pdf rdf tdf : Option Table) :
    (hasAllContext ydf → merge_datasets ydf pdf rdf tdf = .ok ydf) ∧
    (∀ out, merge_datasets ydf pdf rdf tdf = .ok out →
      ¬hasAllContext ydf →
      "pesticides_tonnes" ∉ ydf.cols →
      "rainfall_mm" ∉ ydf.cols →
      "avg_temp" ∉ ydf.cols →
      (∀ r ∈ ydf.rows, r.map Prod.fst = ydf.cols) →
      ∀ lr ∈ ydf.rows, ∃ orow ∈ out.rows,
        (∀ c ∈ ydf.cols, lookupCell c orow = lookupCell c lr) ∧
        (∀ d, pdf = some d → (∀ rr ∈ d.rows, rr.map Prod.fst = d.cols) →
          (∀ rr ∈ d.rows, ¬(lookupCell "country" rr = lookupCell "country" lr ∧
            lookupCell "year" rr = lookupCell "year" lr)) →
          lookupCell "pesticides_tonnes" orow = some Cell.na) ∧
        (∀ d, rdf = some d → (∀ rr ∈ d.rows, rr.map Prod.fst = d.cols) →
          (∀ rr ∈ d.rows, ¬(lookupCell "country" rr = lookupCell "country" lr ∧
            lookupCell "year" rr = lookupCell "year" lr)) →
          lookupCell "rainfall_mm" orow = some Cell.na) ∧
        (∀ d, tdf = some d → (∀ rr ∈ d.rows, rr.map Prod.fst = d.cols) →
          (∀ rr ∈ d.rows, ¬(lookupCell "country" rr = lookupCell "country" lr ∧
            lookupCell "year" rr = lookupCell "year" lr)) →
          lookupCell "avg_temp" orow = some Cell.na)) := by
  constructor
  · intro h
    unfold merge_datasets
    rw [if_pos h]
  · intro out hout hnc hpc hrc htc hwf lr hlr
    unfold merge_datasets at hout
    rw [if_neg hnc] at hout
    cases h1 : mergeStep ydf pdf "pesticides_tonnes" with
    | error e => rw [h1] at hout; cases hout
    | ok t1 =>
        rw [h1] at hout
        have hout2 : (do
            let r2 ← mergeStep t1 rdf "rainfall_mm"
            mergeStep r2 tdf "avg_temp" : Except PdErr Table) = Except.ok out := hout
        cases h2 : mergeStep t1 rdf "rainfall_mm" with
        | error e => rw [h2] at hout2; cases hout2
        | ok t2 =>
            rw [h2] at hout2
            have h3 : mergeStep t2 tdf "avg_temp" = Except.ok out := hout2
            rcases mergeStep_row (by decide) (by decide) h1 hlr with ⟨e1, hm1, hs1, hna1⟩
            rcases mergeStep_row (by decide) (by decide) h2 hm1 with ⟨e2, hm2, hs2, hna2⟩
            rcases mergeStep_row (by decide) (by decide) h3 hm2 with ⟨e3, hm3, hs3, hna3⟩
            refine ⟨((lr ++ e1) ++ e2) ++ e3, hm3, ?_, ?_, ?_, ?_⟩
            · intro c hcol
              have hc1 : c ≠ "pesticides_tonnes" := fun he => hpc (he ▸ hcol)
              have hc2 : c ≠ "rainfall_mm" := fun he => hrc (he ▸ hcol)
              have hc3 : c ≠ "avg_temp" := fun he => htc (he ▸ hcol)
              rw [lookup_append_ext hs3 hc3, lookup_append_ext hs2 hc2,
                lookup_append_ext hs1 hc1]
            · intro d hd hdwf hnm
              have he1 : e1 = [("pesticides_tonnes", Cell.na)] := hna1 d hd hdwf hnm
              have hlp : lookupCell "pesticides_tonnes" (lr ++ e1) = some Cell.na := by
                rw [lookupCell_append_of_none _ (lookupCell_none_of_not_mem_keys
                  (by rw [hwf lr hlr]; exact hpc)), he1]
                exact lookupCell_singleton_self _ _
              rw [lookup_append_ext hs3 (by decide), lookup_append_ext hs2 (by decide), hlp]
            · intro d hd hdwf hnm
              have hnm' : ∀ rr ∈ d.rows,
                  ¬(lookupCell "country" rr = lookupCell "country" (lr ++ e1) ∧
                    lookupCell "year" rr = lookupCell "year" (lr ++ e1)) := by
                intro rr hrr
                rw [lookup_append_ext hs1 (by decide), lookup_append_ext hs1 (by decide)]
                exact hnm rr hrr
              have he2 : e2 = [("rainfall_mm", Cell.na)] := hna2 d hd hdwf hnm'
              have hlr2 : lookupCell "rainfall_mm" ((lr ++ e1) ++ e2) = some Cell.na := by
                have hnone : lookupCell "rainfall_mm" (lr ++ e1) = none := by
                  rw [lookup_append_ext hs1 (by decide)]
                  exact lookupCell_none_of_not_mem_keys (by rw [hwf lr hlr]; exact hrc)
                rw [lookupCell_append_of_none _ hnone, he2]
                exact lookupCell_singleton_self _ _
              rw [lookup_append_ext hs3 (by decide), hlr2]
            · intro d hd hdwf hnm
              have hnm' : ∀ rr ∈ d.rows,
                  ¬(lookupCell "country" rr = lookupCell "country" ((lr ++ e1) ++ e2) ∧
                    lookupCell "year" rr = lookupCell "year" ((lr ++ e1) ++ e2)) := by
                intro rr hrr
                rw [lookup_append_ext hs2 (by decide), lookup_append_ext hs2 (by decide),
                  lookup_append_ext hs1 (by decide), lookup_append_ext hs1 (by decide)]
                exact hnm rr hrr
              have he3 : e3 = [("avg_temp", Cell.na)] := hna3 d hd hdwf hnm'
              have hnone : lookupCell "avg_temp" ((lr ++ e1) ++ e2) = none := by
                rw [lookup_append_ext hs2 (by decide), lookup_append_ext hs1 (by decide)]
                exact lookupCell_none_of_not_mem_keys (by rw [hwf lr hlr]; exact htc)
              rw [lookupCell_append_of_none _ hnone, he3]
              exact lookupCell_singleton_self _ _

/-- Concrete yield table for the C7 witness (no context columns). -/
def c7y : Table :=
  ⟨["country", "year", "crop", "yield"],
   [[("country", .text "X"), ("year", .num 2000), ("crop", .text "W"), ("yield", .num 5)]]⟩

/-- Concrete pesticides context table for the C7 witness whose only row does
not match the yield row's (country, year) key. -/
def c7p : Table :=
  ⟨["country", "year", "pesticides_tonnes"],
   [[("country", .text "Z"), ("year", .num 1999), ("pesticides_tonnes", .num 7)]]⟩

/-- Fusion result for the C7 witness: the yield row is retained with a
missing pesticides value. -/
def c7out : Table :=
  ⟨["country", "year", "crop", "yield", "pesticides_tonnes"],
   [[("country", .text "X"), ("year", .num 2000), ("crop", .text "W"), ("yield", .num 5),
     ("pesticides_tonnes", .na)]]⟩

/-- A pre-joined table (all three context columns present) for the C7
witness of the no-op short-circuit. -/
def c7full : Table :=
  ⟨["country", "year", "yield", "rainfall_mm", "pesticides_tonnes", "avg_temp"], []⟩

/-- The single row of `c7y`. -/
def c7row : Row :=
  [("country", .text "X"), ("year", .num 2000), ("crop", .text "W"), ("yield", .num 5)]

theorem claim_C7_witness :
    hasAllContext c7full ∧
    merge_datasets c7full (some c7p) none none = .ok c7full ∧
    merge_datasets c7y (some c7p) none none = .ok c7out ∧
    (¬hasAllContext c7y) ∧
    ("pesticides_tonnes" ∉ c7y.cols) ∧
    ("rainfall_mm" ∉ c7y.cols) ∧
    ("avg_temp" ∉ c7y.cols) ∧
    (∀ r ∈ c7y.rows, r.map Prod.fst = c7y.cols) ∧
    c7row ∈ c7y.rows ∧
    (∃ orow ∈ c7out.rows,
      (∀ c ∈ c7y.cols, lookupCell c orow = lookupCell c c7row) ∧
      (∀ d, (some c7p : Option Table) = some d →
        (∀ rr ∈ d.rows, rr.map Prod.fst = d.cols) →
        (∀ rr ∈ d.rows, ¬(lookupCell "country" rr = lookupCell "country" c7row ∧
          lookupCell "year" rr = lookupCell "year" c7row)) →
        lookupCell "pesticides_tonnes" orow = some Cell.na) ∧
      (∀ d, (none : Option Table) = some d →
        (∀ rr ∈ d.rows, rr.map Prod.fst = d.cols) →
        (∀ rr ∈ d.rows, ¬(lookupCell "country" rr = lookupCell "country" c7row ∧
          lookupCell "year" rr = lookupCell "year" c7row)) →
        lookupCell "rainfall_mm" orow = some Cell.na) ∧
      (∀ d, (none : Option Table) = some d →
        (∀ rr ∈ d.rows, rr.map Prod.fst = d.cols) →
        (∀ rr ∈ d.rows, ¬(lookupCell "country" rr = lookupCell "country" c7row ∧
          lookupCell "year" rr = lookupCell "year" c7row)) →
        lookupCell "avg_temp" orow = some Cell.na)) :=
  ⟨by decide,
   (claim_C7_fusion c7full (some c7p) none none).1 (by decide),
   by decide, by decide, by decide, by decide, by decide, by decide, by decide,
   (claim_C7_fusion c7y (some c7p) none none).2 c7out (by decide) (by decide) (by decide)
     (by decide) (by decide) (by decide) c7row (by decide)⟩

end CropRec
